import Mathlib

/-!
# Verification of the OneDL resource-resolution engine

Shallow embedding of the relevant parts of `OneDL.py` (single-file Python
program).  Python strings are modelled as `List Char`, byte strings as
`List Nat`, Python integers as `Int`, raised exceptions as the `.error`
branch of `Except PyErr`, and remote-API interactions as explicit
environment records whose fields hold the responses the code reads.
-/

namespace OneDL

/-- Python exceptions that the embedded code can raise. -/
inductive PyErr where
  | valueError
  | keyError
  | httpError
  | typeError
deriving DecidableEq, Repr

deriving instance DecidableEq for Except

/-! ## Python string primitives (ASCII / Latin-1 fragment)

The program is driven by terminal input; we model the Python `str`
builtins on the character fragment the program can meet, staying faithful
to CPython semantics on that fragment. -/

/-- Python whitespace as recognised by `str.strip()` and `int()`
(ASCII fragment). -/
def pyIsSpaceChar (c : Char) : Bool :=
  c = ' ' || c = '\t' || c = '\n' || c = '\x0b' || c = '\x0c' || c = '\r'

/-- Python `str.strip()`: drop leading and trailing whitespace. -/
def pyStrip (s : List Char) : List Char :=
  ((s.dropWhile pyIsSpaceChar).reverse.dropWhile pyIsSpaceChar).reverse

/-- ASCII decimal digit — the only digits `int()` accepts (fragment:
CPython also accepts other Unicode Nd characters, which behave the same
way for the properties proved here). -/
def isAsciiDigitChar (c : Char) : Bool :=
  '0' ≤ c && c ≤ '9'

/-- Python `str.isdigit()` on one character, on the Latin-1 fragment:
ASCII decimal digits, plus the superscript digits U+00B9, U+00B2, U+00B3,
which CPython's `str.isdigit` accepts (Numeric_Type=Digit) but `int()`
rejects. -/
def pyIsDigitChar (c : Char) : Bool :=
  isAsciiDigitChar c || c = '¹' || c = '²' || c = '³'

/-- Python `str.isdigit()`: nonempty and every character a digit. -/
def pyIsDigitStr (s : List Char) : Bool :=
  !s.isEmpty && s.all pyIsDigitChar

/-- Numeric value of an ASCII digit. -/
def digitVal (c : Char) : Nat :=
  c.toNat - Char.toNat '0'

/-- Value of a digit string, ignoring the underscore group separators
`int()` allows. -/
def digitsToNat (s : List Char) : Nat :=
  s.foldl (fun acc c => if c = '_' then acc else acc * 10 + digitVal c) 0

/-- Shape of a valid unsigned integer literal for Python `int()`:
nonempty, begins and ends with a decimal digit, only digits and
underscores, and no two consecutive underscores (equivalently:
underscores occur singly between digits). -/
def intCoreOk (s : List Char) : Bool :=
  !s.isEmpty &&
  (match s.head? with | some c => isAsciiDigitChar c | none => false) &&
  (match s.getLast? with | some c => isAsciiDigitChar c | none => false) &&
  s.all (fun c => isAsciiDigitChar c || c = '_') &&
  (s.zip s.tail).all (fun p => !(p.1 = '_' && p.2 = '_'))

/-- Python `int(s)` on a string: strip whitespace, optional single sign,
then a digit/underscore literal; `none` models a raised `ValueError`. -/
def pyIntOfStr (s : List Char) : Option Int :=
  let t := pyStrip s
  match t with
  | '+' :: rest => if intCoreOk rest then some (Int.ofNat (digitsToNat rest)) else none
  | '-' :: rest => if intCoreOk rest then some (-Int.ofNat (digitsToNat rest)) else none
  | _ => if intCoreOk t then some (Int.ofNat (digitsToNat t)) else none

/-- Python `str.lower()` on one character (ASCII fragment; no Unicode
character outside this fragment lower-cases onto ASCII `a`/`l`, so
comparisons against the literal `"all"` are exact). -/
def pyLowerChar (c : Char) : Char :=
  if 'A' ≤ c ∧ c ≤ 'Z' then Char.ofNat (c.toNat + 32) else c

/-- Python `str.lower()`. -/
def pyLower (s : List Char) : List Char :=
  s.map pyLowerChar

/-! ## `parse_selection` (OneDL.py lines 368–383)

The Python `set` named `selection` is modelled as a duplicate-free list:
`set.add` appends an element not already present, `set.update(range(a, b+1))`
folds `add` over the inclusive range, and the final `sorted(selection)` is
insertion sort (the order of the accumulator is irrelevant after sorting). -/

/-- Python `set.add` (a Python set is unordered, so the position of the
new element is irrelevant: the accumulated set is sorted before it is
returned). -/
def pySetAdd (sel : List Int) (x : Int) : List Int :=
  if x ∈ sel then sel else x :: sel

/-- Helper for `intRangeIncl`: `n` consecutive integers starting at `x`. -/
def intRangeGo (x : Int) : Nat → List Int
  | 0 => []
  | n + 1 => x :: intRangeGo (x + 1) n

/-- Python `range(a, b + 1)` as a list: the integers from `a` to `b`
inclusive. -/
def intRangeIncl (a b : Int) : List Int :=
  intRangeGo a (b + 1 - a).toNat

/-- One iteration of the `for part in selection_input.split(",")` loop of
`parse_selection`, applied to the already stripped token.  The range
branch is wrapped in `try/except ValueError` in the source, so every
`int()` failure there merely skips the token; the single-index branch
guards with `part.isdigit()` but calls `int(part)` outside any `try`, so
an `int()` failure there propagates. -/
def parseSelPartCore (max_index : Int) (sel : List Int) (part : List Char) :
    Except PyErr (List Int) :=
  if part.contains '-' then
    match (part.splitOn '-').map pyIntOfStr with
    | [some a, some b] =>
        if a ≤ b ∧ 1 ≤ a ∧ a ≤ max_index ∧ 1 ≤ b ∧ b ≤ max_index then
          .ok ((intRangeIncl a b).foldl pySetAdd sel)
        else
          .ok sel
    | _ => .ok sel
  else if pyIsDigitStr part then
    match pyIntOfStr part with
    | some idx => if 1 ≤ idx ∧ idx ≤ max_index then .ok (pySetAdd sel idx) else .ok sel
    | none => .error .valueError
  else
    .ok sel

/-- One loop iteration including the `part = part.strip()` line. -/
def parseSelPart (max_index : Int) (sel : List Int) (part0 : List Char) :
    Except PyErr (List Int) :=
  parseSelPartCore max_index sel (pyStrip part0)

/-- The `for` loop of `parse_selection`: thread the accumulated set
through the loop body token by token; a raised exception aborts the
loop. -/
def parseSelLoop (max_index : Int) : List Int → List (List Char) →
    Except PyErr (List Int)
  | sel, [] => .ok sel
  | sel, p :: ps =>
    match parseSelPart max_index sel p with
    | .ok s1 => parseSelLoop max_index s1 ps
    | .error e => .error e

/-- `parse_selection(selection_input, max_index)`: run the loop over the
comma-separated tokens, then `sorted(selection)`. -/
def parse_selection (selection_input : List Char) (max_index : Int) :
    Except PyErr (List Int) :=
  match parseSelLoop max_index [] (selection_input.splitOn ',') with
  | .ok sel => .ok (sel.insertionSort (· ≤ ·))
  | .error e => .error e

/-! ## `select_files_interactive` choice handling (OneDL.py lines 224–237) -/

/-- The pure part of `select_files_interactive` after the prompt: the
user's `choice` is stripped, an empty or (case-insensitively) `"all"`
answer selects every file as `list(range(max_index))` (0-based), and any
other answer goes through `parse_selection` and is shifted to 0-based
indices filtered to `[1, max_index]`. -/
def select_files_interactive (choice0 : List Char) (max_index : Nat) :
    Except PyErr (List Int) :=
  let choice := pyStrip choice0
  if choice.isEmpty || (pyLower choice == ("all").data) then
    .ok ((List.range max_index).map (fun k : Nat => (k : Int)))
  else do
    let raw ← parse_selection choice ((max_index : Int))
    pure ((raw.filter (fun i => 1 ≤ i ∧ i ≤ (max_index : Int))).map (fun i => i - 1))

/-! ## Lemmas about the selection parser -/

theorem mem_pySetAdd {sel : List Int} {x i : Int} :
    i ∈ pySetAdd sel x ↔ i ∈ sel ∨ i = x := by
  unfold pySetAdd
  split
  · next h =>
    constructor
    · exact Or.inl
    · rintro (h' | rfl)
      · exact h'
      · exact h
  · next h =>
    simp only [List.mem_cons]
    tauto

theorem nodup_pySetAdd {sel : List Int} {x : Int} (h : sel.Nodup) :
    (pySetAdd sel x).Nodup := by
  unfold pySetAdd
  split
  · exact h
  · next hc => exact List.Nodup.cons hc h

theorem mem_foldl_pySetAdd (xs : List Int) (sel : List Int) (i : Int) :
    i ∈ xs.foldl pySetAdd sel ↔ i ∈ sel ∨ i ∈ xs := by
  induction xs generalizing sel with
  | nil => simp
  | cons x xs ih =>
    rw [List.foldl_cons, ih, mem_pySetAdd]
    simp only [List.mem_cons]
    tauto

theorem nodup_foldl_pySetAdd (xs : List Int) (sel : List Int) (h : sel.Nodup) :
    (xs.foldl pySetAdd sel).Nodup := by
  induction xs generalizing sel with
  | nil => exact h
  | cons x xs ih => exact ih _ (nodup_pySetAdd h)

theorem mem_intRangeGo {i : Int} : ∀ {n : Nat} {x : Int},
    i ∈ intRangeGo x n ↔ x ≤ i ∧ i < x + n := by
  intro n
  induction n with
  | zero =>
    intro x
    constructor
    · intro h
      exact absurd h (List.not_mem_nil i)
    · intro h
      exfalso
      omega
  | succ n ih =>
    intro x
    simp only [intRangeGo, List.mem_cons, ih]
    omega

theorem mem_intRangeIncl {a b i : Int} :
    i ∈ intRangeIncl a b ↔ a ≤ i ∧ i ≤ b := by
  unfold intRangeIncl
  rw [mem_intRangeGo]
  omega

/-- Specification-side reading of one (already stripped) token: the list
of indices an in-bounds range or digit token contributes (`.error` on the
superscript-digit slip, empty otherwise).  Mirrors the branch structure of
`parseSelPartCore`. -/
def tokenContribE (max_index : Int) (part : List Char) :
    Except PyErr (List Int) :=
  if part.contains '-' then
    match (part.splitOn '-').map pyIntOfStr with
    | [some a, some b] =>
        if a ≤ b ∧ 1 ≤ a ∧ a ≤ max_index ∧ 1 ≤ b ∧ b ≤ max_index then
          .ok (intRangeIncl a b)
        else
          .ok []
    | _ => .ok []
  else if pyIsDigitStr part then
    match pyIntOfStr part with
    | some idx => if 1 ≤ idx ∧ idx ≤ max_index then .ok [idx] else .ok []
    | none => .error .valueError
  else
    .ok []

/-- The indices one raw token contributes to the result set. -/
def tokenSet (max_index : Int) (part0 : List Char) : List Int :=
  match tokenContribE max_index (pyStrip part0) with
  | .ok l => l
  | .error _ => []

theorem parseSelPartCore_eq (m : Int) (sel : List Int) (p : List Char) :
    parseSelPartCore m sel p =
      (tokenContribE m p).map (fun xs => xs.foldl pySetAdd sel) := by
  unfold parseSelPartCore tokenContribE
  split
  · split
    · split <;> rfl
    · rfl
  · split
    · split
      · split <;> rfl
      · rfl
    · rfl

theorem tokenContribE_bounds {m : Int} {p : List Char} {l : List Int}
    (h : tokenContribE m p = .ok l) : ∀ i ∈ l, 1 ≤ i ∧ i ≤ m := by
  unfold tokenContribE at h
  split at h
  · split at h
    · rename_i a b hmatch
      by_cases hc : a ≤ b ∧ 1 ≤ a ∧ a ≤ m ∧ 1 ≤ b ∧ b ≤ m
      · rw [if_pos hc] at h
        cases h
        intro i hi
        rw [mem_intRangeIncl] at hi
        omega
      · rw [if_neg hc] at h
        cases h
        intro i hi
        cases hi
    · cases h
      intro i hi
      cases hi
  · split at h
    · split at h
      · rename_i idx hmatch
        by_cases hc : 1 ≤ idx ∧ idx ≤ m
        · rw [if_pos hc] at h
          cases h
          intro i hi
          simp only [List.mem_singleton] at hi
          subst hi
          omega
        · rw [if_neg hc] at h
          cases h
          intro i hi
          cases hi
      · cases h
    · cases h
      intro i hi
      cases hi

theorem tokenSet_bounds {m : Int} (p : List Char) :
    ∀ i ∈ tokenSet m p, 1 ≤ i ∧ i ≤ m := by
  unfold tokenSet
  split
  · next heq => exact tokenContribE_bounds heq
  · simp

theorem parseSelLoop_ok {m : Int} :
    ∀ (parts : List (List Char)) (sel out : List Int),
      parseSelLoop m sel parts = .ok out →
      (∀ i, i ∈ out ↔ i ∈ sel ∨ ∃ p ∈ parts, i ∈ tokenSet m p) ∧
      (sel.Nodup → out.Nodup) := by
  intro parts
  induction parts with
  | nil =>
    intro sel out h
    cases h
    simp
  | cons p ps ih =>
    intro sel out h
    unfold parseSelLoop at h
    have hbridge := parseSelPartCore_eq m sel (pyStrip p)
    cases hp : parseSelPart m sel p with
    | error e => rw [hp] at h; cases h
    | ok s1 =>
      rw [hp] at h
      obtain ⟨hmem, hnd⟩ := ih s1 out h
      rw [parseSelPart] at hp
      rw [hp] at hbridge
      cases ht : tokenContribE m (pyStrip p) with
      | error e => rw [ht] at hbridge; cases hbridge
      | ok txs =>
        rw [ht] at hbridge
        simp only [Except.map] at hbridge
        cases hbridge
        constructor
        · intro i
          rw [hmem i, mem_foldl_pySetAdd]
          have hts : tokenSet m p = txs := by unfold tokenSet; rw [ht]
          rw [← hts]
          simp only [List.mem_cons]
          constructor
          · rintro ((h1 | h2) | ⟨q, hq, hq2⟩)
            · exact Or.inl h1
            · exact Or.inr ⟨p, Or.inl rfl, h2⟩
            · exact Or.inr ⟨q, Or.inr hq, hq2⟩
          · rintro (h1 | ⟨q, (rfl | hq), hq2⟩)
            · exact Or.inl (Or.inl h1)
            · exact Or.inl (Or.inr hq2)
            · exact Or.inr ⟨q, hq, hq2⟩
        · intro hn
          exact hnd (nodup_foldl_pySetAdd _ _ hn)

theorem parse_selection_ok {s : List Char} {m : Int} {l : List Int}
    (h : parse_selection s m = .ok l) :
    List.Sorted (· < ·) l ∧
    (∀ i ∈ l, 1 ≤ i ∧ i ≤ m) ∧
    (∀ i : Int, i ∈ l ↔ ∃ p ∈ s.splitOn ',', i ∈ tokenSet m p) := by
  unfold parse_selection at h
  cases hf : parseSelLoop m [] (s.splitOn ',') with
  | error e => rw [hf] at h; cases h
  | ok sel =>
    rw [hf] at h
    cases h
    obtain ⟨hmem, hnd⟩ := parseSelLoop_ok _ _ _ hf
    have hsel_nodup : sel.Nodup := hnd List.nodup_nil
    have hperm := List.perm_insertionSort (· ≤ ·) sel
    have hmem2 : ∀ i : Int, i ∈ sel.insertionSort (· ≤ ·) ↔
        ∃ p ∈ s.splitOn ',', i ∈ tokenSet m p := by
      intro i
      rw [List.mem_insertionSort, hmem i]
      simp
    refine ⟨?_, ?_, hmem2⟩
    · exact List.Sorted.lt_of_le (List.sorted_insertionSort _ _)
        (hperm.nodup_iff.2 hsel_nodup)
    · intro i hi
      rcases (hmem2 i).1 hi with ⟨p, _, hp⟩
      exact tokenSet_bounds p i hp

example : parse_selection (("2,4-6,99").data) 6 = .ok [2, 4, 5, 6] := by decide
example : parse_selection (("5-2").data) 10 = .ok [] := by decide
example : parse_selection (("").data) 5 = .ok [] := by decide
example : parse_selection (("all").data) 5 = .ok [] := by decide
example : parse_selection (("²").data) 10 = .error .valueError := by decide
example : select_files_interactive (("All").data) 3 = .ok [0, 1, 2] := by decide
example : select_files_interactive (("").data) 3 = .ok [0, 1, 2] := by decide
example : select_files_interactive (("1, 3").data) 3 = .ok [0, 2] := by decide
example : select_files_interactive (("²").data) 5 = .error .valueError := by decide

/-! ## Claims about the selection parser -/

/-- C2: for every `maxIndex ≥ 1`, the selection component maps both the
empty expression and any letter-casing of the literal `all` to the full
selection `list(range(maxIndex))`; the two results are equal, and viewed
1-based the full selection is exactly `{1..maxIndex}`. -/
theorem C2_empty_and_all_give_full_selection :
    ∀ (maxIndex : Nat) (s : List Char), 1 ≤ maxIndex →
      pyLower (pyStrip s) = ("all").data →
      select_files_interactive s maxIndex =
        .ok ((List.range maxIndex).map (fun k : Nat => (k : Int))) ∧
      select_files_interactive ([]) maxIndex =
        .ok ((List.range maxIndex).map (fun k : Nat => (k : Int))) ∧
      select_files_interactive s maxIndex =
        select_files_interactive ([]) maxIndex ∧
      (∀ i : Int,
        i ∈ ((List.range maxIndex).map (fun k : Nat => (k : Int))).map (fun k => k + 1) ↔
          1 ≤ i ∧ i ≤ (maxIndex : Int)) := by
  intro maxIndex s _ hall
  have hcond :
      ((pyStrip s).isEmpty || (pyLower (pyStrip s) == ("all").data)) = true := by
    simp [hall]
  have h1 : select_files_interactive s maxIndex =
      .ok ((List.range maxIndex).map (fun k : Nat => (k : Int))) := by
    unfold select_files_interactive
    simp only [hcond, if_true]
  have h2 : select_files_interactive ([]) maxIndex =
      .ok ((List.range maxIndex).map (fun k : Nat => (k : Int))) := by
    unfold select_files_interactive
    simp [pyStrip]
  refine ⟨h1, h2, h1.trans h2.symm, ?_⟩
  intro i
  rw [List.mem_map]
  constructor
  · rintro ⟨j, hj, rfl⟩
    rw [List.mem_map] at hj
    obtain ⟨k, hk, rfl⟩ := hj
    rw [List.mem_range] at hk
    constructor <;> omega
  · intro h
    refine ⟨i - 1, ?_, by omega⟩
    rw [List.mem_map]
    refine ⟨(i - 1).toNat, ?_, by omega⟩
    rw [List.mem_range]
    omega

/-- Witness for C2 at `maxIndex = 3` and the mixed-case answer `"All"`. -/
theorem C2_witness :
    select_files_interactive (("All").data) 3 = .ok [0, 1, 2] ∧
    select_files_interactive ([]) 3 = .ok [0, 1, 2] := by
  have h := C2_empty_and_all_give_full_selection 3 (("All").data)
    (by decide) (by decide)
  exact ⟨h.1.trans (by decide), h.2.1.trans (by decide)⟩

/-- C3 (code bug): selection parsing is *not* total.  The single-index
branch guards with `part.isdigit()` and then calls `int(part)` outside any
`try`; CPython's `"²".isdigit()` is `True` (superscript two has
Numeric_Type=Digit) while `int("²")` raises `ValueError`, so
`parse_selection("²", 10)` raises an uncaught `ValueError` and the
interactive selection aborts with it. -/
theorem C3_selection_parsing_raises_on_superscript_digit :
    parse_selection (("²").data) 10 = .error .valueError ∧
    select_files_interactive (("²").data) 5 = .error .valueError := by
  constructor <;> decide

/-- C7 counterexample: not *every* failing token is silently discarded.
The expression `"²,3"` contains a token that passes `part.isdigit()` but
is rejected by `int()` (superscript two), so `parse_selection` raises an
uncaught `ValueError` instead of discarding it — and the well-formed
remaining token `3` is not kept: no selection set is returned at all. -/
theorem C7_counterexample :
    parse_selection (("²,3").data) 10 = .error .valueError ∧
    parse_selection (("²,3").data) 10 ≠ .ok ([3] : List Int) := by
  constructor
  · decide
  · decide

/-- C7 (amended): on every selection expression whose parse returns —
i.e. that contains no `isdigit`-but-not-`int()`-parsable token, which
instead raises `ValueError` (the C3 bug) — every malformed or
out-of-bounds token is silently discarded while the remaining tokens are
kept (membership in the result is exactly membership in some token's
contribution), and the result is strictly ascending (hence deduplicated)
and within `[1, maxIndex]`; in particular
`parse("2,4-6,99", 6) = [2,4,5,6]` and `parse("5-2", 10) = []`. -/
theorem C7_tokens_filtered_sorted_dedup :
    parse_selection (("2,4-6,99").data) 6 = .ok [2, 4, 5, 6] ∧
    parse_selection (("5-2").data) 10 = .ok [] ∧
    (∀ (s : List Char) (m : Int) (l : List Int),
      parse_selection s m = .ok l →
      List.Sorted (· < ·) l ∧
      (∀ i ∈ l, 1 ≤ i ∧ i ≤ m) ∧
      (∀ i : Int, i ∈ l ↔ ∃ p ∈ s.splitOn ',', i ∈ tokenSet m p)) := by
  refine ⟨by decide, by decide, ?_⟩
  intro s m l h
  exact parse_selection_ok h

/-- Witness for C7's universally quantified part at the concrete parse
`"2,4-6,99"` with `maxIndex = 6`. -/
theorem C7_witness :
    List.Sorted (· < ·) ([2, 4, 5, 6] : List Int) ∧
    (∀ i ∈ ([2, 4, 5, 6] : List Int), 1 ≤ i ∧ i ≤ (6 : Int)) := by
  have h := C7_tokens_filtered_sorted_dedup.2.2 (("2,4-6,99").data) 6
    [2, 4, 5, 6] (by decide)
  exact ⟨h.1, h.2.1⟩

/-! ## `find_best_debrid` service list (OneDL.py lines 2205–2277)

`find_best_debrid` probes each provider that has an API token, in the
fixed source order Real-Debrid, AllDebrid, Premiumize.me, Torbox,
Debrid-Link, and appends `(name, support, cached)` to `services`; the
menu shown to the caller is `services` in construction order.  A probe
outcome is the pair the `check_*_cache` functions return: a support
string (`"supported"`, `"not_supported"` or `"unknown"`) and the cached
flag (`True`/`False`/`None`).  A `none` argument models a provider whose
API token is unset (its check function returns `None` and nothing is
appended). -/

/-- The `(support, cached)` pair returned by a cache probe. -/
abbrev ProbeStatus := String × Option Bool

/-- The single `services.append((name, support, cached))` a configured
provider contributes. -/
def debridEntry (name : String) (st : Option ProbeStatus) :
    List (String × ProbeStatus) :=
  match st with
  | some s => [(name, s)]
  | none => []

/-- The `services` list assembled by `find_best_debrid`, as a function of
the five probe outcomes. -/
def find_best_debrid_services (rd ad pm tb dl : Option ProbeStatus) :
    List (String × ProbeStatus) :=
  debridEntry ("Real-Debrid") rd ++ debridEntry ("AllDebrid") ad ++
  debridEntry ("Premiumize.me") pm ++ debridEntry ("Torbox") tb ++
  debridEntry ("Debrid-Link") dl

/-- The rank the claim asserts: Supported+Cached strictly before
Supported+NotCached, before NotSupported, with Unknown last. -/
def probeRank (st : ProbeStatus) : Nat :=
  if st.1 = "supported" then (if st.2 = some true then 0 else 1)
  else if st.1 = "not_supported" then 2
  else 3

/-- The ordering the claim asserts of the returned ranking. -/
def rankedByCache (l : List (String × ProbeStatus)) : Prop :=
  l.Pairwise (fun x y => probeRank x.2 ≤ probeRank y.2)

instance (l : List (String × ProbeStatus)) : Decidable (rankedByCache l) := by
  unfold rankedByCache
  infer_instance

/-- C1 counterexample: with probe results A = Real-Debrid
(Supported, not cached), B = AllDebrid (Supported, cached),
C = Premiumize.me (NotSupported), the services list returned to the
caller is `[A, B, C]` — the cached provider B sorts *after* the
non-cached A, so the ranking is not ordered by cache status and the
claimed order `[B, A, C]` does not occur. -/
theorem C1_counterexample :
    find_best_debrid_services
        (some (("supported"), some false)) (some (("supported"), some true))
        (some (("not_supported"), none)) none none =
      [(("Real-Debrid"), (("supported"), some false)),
       (("AllDebrid"), (("supported"), some true)),
       (("Premiumize.me"), (("not_supported"), none))] ∧
    ¬ rankedByCache (find_best_debrid_services
        (some (("supported"), some false)) (some (("supported"), some true))
        (some (("not_supported"), none)) none none) := by
  constructor
  · rfl
  · decide

theorem map_fst_debridEntry (name : String) (o : Option ProbeStatus) :
    ((debridEntry name o).map Prod.fst).Sublist [name] := by
  cases o <;> simp [debridEntry]

/-- C1 amended: the ranking returned to the caller lists exactly the
configured providers with their probe results, in the fixed probe order
Real-Debrid, AllDebrid, Premiumize.me, Torbox, Debrid-Link — independent
of cache status; for the claim's example probe results the order is
`[A, B, C]`, not `[B, A, C]`. -/
theorem C1_amended_fixed_probe_order :
    ∀ (rd ad pm tb dl : Option ProbeStatus),
      ((find_best_debrid_services rd ad pm tb dl).map Prod.fst).Sublist
        [("Real-Debrid" : String), ("AllDebrid"), ("Premiumize.me"),
         ("Torbox"), ("Debrid-Link")] ∧
      (∀ nm st, (nm, st) ∈ find_best_debrid_services rd ad pm tb dl ↔
        ((nm = "Real-Debrid" ∧ rd = some st) ∨
         (nm = "AllDebrid" ∧ ad = some st) ∨
         (nm = "Premiumize.me" ∧ pm = some st) ∨
         (nm = "Torbox" ∧ tb = some st) ∨
         (nm = "Debrid-Link" ∧ dl = some st))) := by
  intro rd ad pm tb dl
  constructor
  · unfold find_best_debrid_services
    simp only [List.map_append]
    exact ((((map_fst_debridEntry _ _).append
      (map_fst_debridEntry _ _)).append
        (map_fst_debridEntry _ _)).append
          (map_fst_debridEntry _ _)).append
            (map_fst_debridEntry _ _)
  · intro nm st
    cases rd <;> cases ad <;> cases pm <;> cases tb <;> cases dl <;>
      simp [find_best_debrid_services, debridEntry, Prod.ext_iff, eq_comm]

/-! ## Resource classification (OneDL.py lines 364–365 and the branch
structure of `get_real_debrid_links`, lines 386–549) -/

/-- Python `needle in haystack` on strings: some suffix of the haystack
starts with the needle. -/
def pyInStr (needle : List Char) : List Char → Bool
  | [] => needle.isEmpty
  | c :: rest => needle.isPrefixOf (c :: rest) || pyInStr needle rest

/-- `is_magnet(url)`: `url.strip().startswith("magnet:")`. -/
def is_magnet (url : List Char) : Bool :=
  (("magnet:").data).isPrefixOf (pyStrip url)

/-- The three ways an input string can be routed. -/
inductive ResourceKind where
  | magnet
  | cloudFolder
  | hosterLink
deriving DecidableEq, Repr

/-- The classification each `get_*_links` function applies, read off the
branch structure of `get_real_debrid_links`: `is_magnet(url)` first, then
`"mega.nz/folder/" in url and "/file/" not in url` for the cloud-folder
branch, hoster otherwise. -/
def classify (url : List Char) : ResourceKind :=
  if is_magnet url then .magnet
  else if pyInStr (("mega.nz/folder/").data) url &&
      !(pyInStr (("/file/").data) url) then .cloudFolder
  else .hosterLink

/-- C8: classification precedence.  A string that begins with `magnet:`
after stripping surrounding whitespace always classifies as Magnet (the
magnet rule is checked first); a non-magnet string containing both the
cloud-folder marker `mega.nz/folder/` and the specific-file marker
`/file/` classifies as HosterLink, not CloudFolder. -/
theorem C8_classification_precedence :
    (∀ url : List Char,
      (("magnet:").data).isPrefixOf (pyStrip url) → classify url = .magnet) ∧
    (∀ url : List Char,
      pyInStr (("mega.nz/folder/").data) url →
      pyInStr (("/file/").data) url →
      ¬ (("magnet:").data).isPrefixOf (pyStrip url) →
      classify url = .hosterLink) := by
  constructor
  · intro url h
    simp [classify, is_magnet, h]
  · intro url h1 h2 h3
    simp [classify, is_magnet, h1, h2, h3]

/-- Witness for C8: a magnet link surrounded by whitespace, and a MEGA
file-in-folder link. -/
theorem C8_witness :
    classify (("  magnet:?xt=urn:btih:ABCD  ").data) = .magnet ∧
    classify (("https://mega.nz/folder/abCdEf#Key/file/XyZ").data) =
      .hosterLink := by
  constructor
  · exact C8_classification_precedence.1 _ (by decide)
  · exact C8_classification_precedence.2 _ (by decide) (by decide) (by decide)

/-! ## Unlock loops (OneDL.py lines 447–461 and 642–664)

Remote responses are supplied by an environment function; the loops are
translated exactly: a per-file unlock failure prints and continues. -/

/-- The fields `get_real_debrid_links` reads off one
`POST /unrestrict/link` response: the HTTP status and the `download`
field of the JSON body (`none` when absent). -/
structure RDUnlockResp where
  status_code : Int
  download : Option (List Char)

/-- The `for dl in info["links"]` loop of the Real-Debrid `downloaded`
branch (lines 448–457): unrestrict each link, keep the `download` URL of
each response with HTTP 200 and a `download` field, skip the rest. -/
def rd_unrestrict_loop (env : List Char → RDUnlockResp) :
    List (List Char) → List (List Char)
  | [] => []
  | dl :: rest =>
    let r := env dl
    if r.status_code = 200 then
      match r.download with
      | some d => d :: rd_unrestrict_loop env rest
      | none => rd_unrestrict_loop env rest
    else
      rd_unrestrict_loop env rest

/-- The fields `get_alldebrid_links` reads off one
`GET /v4.1/link/unlock` response for a selected file index: whether
`status == "success"` and the `data.link` field (`none` when absent). -/
structure ADUnlockResp where
  success : Bool
  link : Option (List Char)

/-- The `for idx in selected_indexes` unlock loop of the AllDebrid ready
branch (lines 646–664): on success append the unlocked link when it is
present and non-empty (Python truthiness of `if unlocked_link:`), on
failure print and continue with the remaining files. -/
def ad_unlock_loop (env : Nat → ADUnlockResp) : List Nat → List (List Char)
  | [] => []
  | idx :: rest =>
    let r := env idx
    if r.success then
      match r.link with
      | some l =>
        if l.isEmpty then ad_unlock_loop env rest else l :: ad_unlock_loop env rest
      | none => ad_unlock_loop env rest
    else
      ad_unlock_loop env rest

/-- A concrete unlock environment for five selected files in which file
index 2 fails and every other file unlocks to a one-character URL. -/
def adUnlockEnvFive : Nat → ADUnlockResp :=
  fun idx => if idx = 2 then ⟨false, none⟩ else ⟨true, some [Char.ofNat (65 + idx)]⟩

theorem rd_unrestrict_loop_filterMap (env : List Char → RDUnlockResp) :
    ∀ dls : List (List Char),
      rd_unrestrict_loop env dls = dls.filterMap (fun dl =>
        if (env dl).status_code = 200 then (env dl).download else none) := by
  intro dls
  induction dls with
  | nil => rfl
  | cons dl rest ih =>
    unfold rd_unrestrict_loop
    rw [List.filterMap_cons]
    by_cases h : (env dl).status_code = 200
    · simp only [h, if_pos]
      cases hd : (env dl).download with
      | none => simpa [hd] using ih
      | some d => simpa [hd] using ih
    · simp only [if_neg h]
      exact ih

theorem ad_unlock_loop_filterMap (env : Nat → ADUnlockResp) :
    ∀ idxs : List Nat,
      ad_unlock_loop env idxs = idxs.filterMap (fun idx =>
        match (env idx).success, (env idx).link with
        | true, some l => if l.isEmpty then none else some l
        | _, _ => none) := by
  intro idxs
  induction idxs with
  | nil => rfl
  | cons idx rest ih =>
    unfold ad_unlock_loop
    rw [List.filterMap_cons]
    cases hs : (env idx).success with
    | false => simp [hs, ih]
    | true =>
      cases hl : (env idx).link with
      | none => simp [hs, hl, ih]
      | some l =>
        by_cases he : l.isEmpty
        · simp [hs, hl, he, ih]
        · simp [hs, hl, he, ih]

/-- C9: an unlock failure on one file is non-fatal to the batch.  Both
unlock loops return exactly the successfully unlocked URLs of the input
list, so every other file's URL is kept no matter which files fail; in
particular, with five selected files of which index 2 fails, the other
four URLs are all returned. -/
theorem C9_unlock_failure_nonfatal :
    (∀ (env : List Char → RDUnlockResp) (dls : List (List Char)) (dl : List Char)
        (d : List Char), dl ∈ dls → (env dl).status_code = 200 →
        (env dl).download = some d → d ∈ rd_unrestrict_loop env dls) ∧
    (∀ (env : Nat → ADUnlockResp) (idxs : List Nat) (idx : Nat) (l : List Char),
        idx ∈ idxs → (env idx).success = true → (env idx).link = some l →
        ¬l.isEmpty → l ∈ ad_unlock_loop env idxs) ∧
    ad_unlock_loop adUnlockEnvFive [0, 1, 2, 3, 4] =
      [[('A')], [('B')], [('D')], [('E')]] := by
  refine ⟨?_, ?_, by decide⟩
  · intro env dls dl d hmem hcode hdl
    rw [rd_unrestrict_loop_filterMap]
    rw [List.mem_filterMap]
    exact ⟨dl, hmem, by rw [if_pos hcode, hdl]⟩
  · intro env idxs idx l hmem hs hl hne
    rw [ad_unlock_loop_filterMap]
    rw [List.mem_filterMap]
    refine ⟨idx, hmem, ?_⟩
    rw [hs, hl]
    simp [hne]

/-- Witness for C9 at the five-file environment: file 3 (unlocking to
`"D"`) survives the failure of file 2. -/
theorem C9_witness : [('D')] ∈ ad_unlock_loop adUnlockEnvFive [0, 1, 2, 3, 4] :=
  C9_unlock_failure_nonfatal.2.1 adUnlockEnvFive [0, 1, 2, 3, 4] 3 [('D')]
    (by decide) (by decide) (by decide) (by decide)

/-! ## Poll loops (OneDL.py lines 404–493 and 590–702)

One iteration of each provider's status-poll loop, as a function of the
poll response; `next` carries the loop state and the total units slept
before the next poll. -/

/-- The fields of one Real-Debrid `torrents/info` response the loop
reads: the `status` string and, in the `downloaded` branch, the `links`
list. -/
structure RDInfoResp where
  status : String
  links : List (List Char)

/-- Outcome of one Real-Debrid poll iteration. -/
inductive RDStep where
  | done (links : List (List Char))
  | next (selection_sent : Bool) (sleep : Nat)
deriving DecidableEq

/-- One iteration of the Real-Debrid poll loop (lines 406–493).
`selected` is the result of the file-selection callback, `unrestrict` the
unlock environment.  The waiting branch sleeps 3 (line 446); the
processing branch sleeps 3 twice (lines 490 and 493), 6 in total. -/
def rd_poll_step (selected : List Nat) (unrestrict : List Char → RDUnlockResp)
    (selection_sent : Bool) (info : RDInfoResp) : RDStep :=
  if info.status = "waiting_files" ∨ info.status = "waiting_files_selection" then
    if !selection_sent then
      if selected.isEmpty then .done []
      else .next true 3
    else .next selection_sent 3
  else if info.status = "downloaded" then
    .done (rd_unrestrict_loop unrestrict info.links)
  else if info.status = "magnet_error" then
    .done []
  else
    .next selection_sent 6

/-- AllDebrid file tree node (`parse_alldebrid_files` input): an entry
with a link `l`, a folder with entries `e`, or anything else. -/
inductive ADTree where
  | file (name : List Char) (size : Int) (link : List Char)
  | folder (entries : List ADTree)
  | other

/-- A flattened AllDebrid file. -/
structure ADFile where
  name : List Char
  size : Int
  link : List Char

/-- `parse_alldebrid_files` (lines 550–567): recursively flatten the
nested files structure, keeping entries that carry a link. -/
def parse_alldebrid_files : List ADTree → List ADFile
  | [] => []
  | .file n s l :: rest => ⟨n, s, l⟩ :: parse_alldebrid_files rest
  | .folder es :: rest => parse_alldebrid_files es ++ parse_alldebrid_files rest
  | .other :: rest => parse_alldebrid_files rest

/-- The fields of one AllDebrid `magnet/status` response the loop reads:
whether the envelope `status` is `"success"`, the magnet's `statusCode`
(`none` when missing) and, in the ready branch, the files tree. -/
structure ADStatusResp where
  success : Bool
  statusCode : Option Int
  files : List ADTree

/-- Outcome of one AllDebrid poll iteration: finished with URLs, sleep
and poll again, or a raised exception. -/
inductive ADStep where
  | done (urls : List (List Char))
  | next (sleep : Nat)
  | raised (e : PyErr)
deriving DecidableEq

/-- One iteration of the AllDebrid poll loop (lines 590–702).
`statusCode == 4` resolves the file tree, asks the selection callback and
unlocks; `0–3` sleeps 2 (line 689); `> 4` deletes the magnet and returns
`[]`; a missing `statusCode` reaches `status_code > 4` with `None` and
raises `TypeError`; any other value (negative) falls to the final `else`
which sleeps 2 (line 702). -/
def ad_poll_step (selected : List Nat) (unlock : Nat → ADUnlockResp)
    (resp : ADStatusResp) : ADStep :=
  if !resp.success then .done []
  else if resp.statusCode = some 4 then
    let available := parse_alldebrid_files resp.files
    if available.isEmpty then .done []
    else if selected.isEmpty then .done []
    else .done (ad_unlock_loop unlock selected)
  else if resp.statusCode = some 0 ∨ resp.statusCode = some 1 ∨
      resp.statusCode = some 2 ∨ resp.statusCode = some 3 then
    .next 2
  else
    match resp.statusCode with
    | none => .raised .typeError
    | some c => if c > 4 then .done [] else .next 2

/-- Run the Real-Debrid poll loop over a finite prefix of poll
responses: `inl` is the loop state still polling after consuming them
all, `inr` a terminal result. -/
def rd_poll_run (selected : List Nat) (unrestrict : List Char → RDUnlockResp) :
    Bool → List RDInfoResp → Sum Bool (List (List Char))
  | st, [] => .inl st
  | st, info :: rest =>
    match rd_poll_step selected unrestrict st info with
    | .done ls => .inr ls
    | .next st2 _ => rd_poll_run selected unrestrict st2 rest

/-- C5 counterexample: the poll interval is not within 3–5 time units.
AllDebrid sleeps 2 units between polls of a downloading magnet
(`statusCode = 1`), and Real-Debrid sleeps 3 + 3 = 6 units in its
processing branch (`status = "downloading"`). -/
theorem C5_counterexample :
    ad_poll_step [] (fun _ => ⟨false, none⟩) ⟨true, some 1, []⟩ = .next 2 ∧
    ¬(3 ≤ 2 ∧ 2 ≤ 5) ∧
    rd_poll_step [] (fun _ => ⟨0, none⟩) true ⟨("downloading"), []⟩ =
      .next true 6 ∧
    ¬(3 ≤ 6 ∧ 6 ≤ 5) := by
  refine ⟨by decide, by decide, ?_, by decide⟩
  rfl

/-- C5 amended: each poll loop sleeps a fixed, iteration-independent
interval per branch — 2 units in AllDebrid's queued/downloading states,
3 units in Real-Debrid's awaiting-selection branch and 6 units in its
processing branch — with no backoff and no retry cap: the Real-Debrid
loop is still polling after consuming any finite number of
non-terminal responses. -/
theorem C5_amended_fixed_interval_no_cap :
    (∀ (selected : List Nat) (unlock : Nat → ADUnlockResp) (resp : ADStatusResp),
      resp.success = true →
      (resp.statusCode = some 0 ∨ resp.statusCode = some 1 ∨
       resp.statusCode = some 2 ∨ resp.statusCode = some 3) →
      ad_poll_step selected unlock resp = .next 2) ∧
    (∀ (selected : List Nat) (unrestrict : List Char → RDUnlockResp)
        (st : Bool) (info : RDInfoResp),
      ¬selected.isEmpty →
      (info.status = "waiting_files" ∨ info.status = "waiting_files_selection") →
      rd_poll_step selected unrestrict st info = .next true 3 ∨
      rd_poll_step selected unrestrict st info = .next st 3) ∧
    (∀ (selected : List Nat) (unrestrict : List Char → RDUnlockResp)
        (st : Bool) (info : RDInfoResp),
      info.status ≠ "waiting_files" → info.status ≠ "waiting_files_selection" →
      info.status ≠ "downloaded" → info.status ≠ "magnet_error" →
      rd_poll_step selected unrestrict st info = .next st 6) ∧
    (∀ (selected : List Nat) (unrestrict : List Char → RDUnlockResp)
        (st : Bool) (infos : List RDInfoResp),
      (∀ info ∈ infos, info.status ≠ "waiting_files" ∧
        info.status ≠ "waiting_files_selection" ∧
        info.status ≠ "downloaded" ∧ info.status ≠ "magnet_error") →
      rd_poll_run selected unrestrict st infos = .inl st) := by
  refine ⟨?_, ?_, ?_, ?_⟩
  · intro selected unlock resp hs hc
    unfold ad_poll_step
    rw [hs]
    have h4 : resp.statusCode ≠ some 4 := by
      rcases hc with h | h | h | h <;> rw [h] <;> decide
    simp only [Bool.not_true, Bool.false_eq_true, if_false, if_neg h4, hc, if_pos]
  · intro selected unrestrict st info hsel hw
    unfold rd_poll_step
    rw [if_pos hw]
    cases st
    · left
      simp [hsel]
    · right
      simp
  · intro selected unrestrict st info h1 h2 h3 h4
    unfold rd_poll_step
    rw [if_neg (by tauto), if_neg h3, if_neg h4]
  · intro selected unrestrict st infos hall
    induction infos generalizing st with
    | nil => rfl
    | cons info rest ih =>
      obtain ⟨h1, h2, h3, h4⟩ := hall info (List.mem_cons_self _ _)
      unfold rd_poll_run
      rw [rd_poll_step, if_neg (by tauto), if_neg h3, if_neg h4]
      exact ih _ (fun i hi => hall i (List.mem_cons_of_mem _ hi))

/-- Witness for C5's amended statement: concrete AllDebrid downloading
response and a run of three Real-Debrid `"downloading"` polls that is
still polling afterwards. -/
theorem C5_witness :
    ad_poll_step [] (fun _ => ⟨false, none⟩) ⟨true, some 2, []⟩ = .next 2 ∧
    rd_poll_run [] (fun _ => ⟨0, none⟩) false
      [⟨("downloading"), []⟩, ⟨("queued"), []⟩, ⟨("uploading"), []⟩] =
      .inl false := by
  constructor
  · exact C5_amended_fixed_interval_no_cap.1 [] (fun _ => ⟨false, none⟩)
      ⟨true, some 2, []⟩ (by decide) (by decide)
  · exact C5_amended_fixed_interval_no_cap.2.2.2 [] (fun _ => ⟨0, none⟩) false
      [⟨("downloading"), []⟩, ⟨("queued"), []⟩, ⟨("uploading"), []⟩]
      (by decide)

/-! ## Job-creation phase of the Premiumize and Torbox resolvers
(OneDL.py lines 766–772 and 1086–1103) -/

/-- `requests.Response.raise_for_status()`: raise `HTTPError` on a 4xx or
5xx status. -/
def raise_for_status (code : Int) : Except PyErr Unit :=
  if 400 ≤ code ∧ code ≤ 599 then .error .httpError else .ok ()

/-- The fields `get_premiumize_links` reads off the `transfer/create`
response: HTTP status and the body's `id` (`none` models a missing key,
whose subscript raises `KeyError`). -/
structure PMCreateResp where
  status_code : Int
  id : Option (List Char)

/-- The magnet job-creation phase of `get_premiumize_links`
(lines 766–772), up to obtaining `transfer_id`: `raise_for_status`
propagates HTTP errors out of the resolution call. -/
def premiumize_magnet_create (resp : PMCreateResp) :
    Except PyErr (List Char) :=
  match raise_for_status resp.status_code with
  | .error e => .error e
  | .ok _ =>
    match resp.id with
    | some tid => .ok tid
    | none => .error .keyError

/-- The fields `get_torbox_links` reads off the `createtorrent`
response: HTTP status, the body's `success` flag, and the value of
`data.get("torrent_id") or data.get("id")`. -/
structure TBCreateResp where
  status_code : Int
  success : Bool
  torrent_id : Option Int

/-- The magnet job-creation phase of `get_torbox_links`
(lines 1086–1103): `raise_for_status` propagates HTTP errors; an
unsuccessful API response returns the empty result list `.inl []`;
otherwise resolution proceeds with the job id `.inr`. -/
def torbox_magnet_create (resp : TBCreateResp) :
    Except PyErr (Sum (List (List Char)) (Option Int)) :=
  match raise_for_status resp.status_code with
  | .error e => .error e
  | .ok _ =>
    if !resp.success then .ok (.inl [])
    else .ok (.inr resp.torrent_id)

/-- C6 counterexample: a transport-level failure during job creation
does not yield an empty result list — it propagates an exception out of
the resolution call (and `main` catches only `KeyboardInterrupt`).  A 500
on Premiumize `transfer/create` and a 503 on Torbox `createtorrent` both
raise `HTTPError` via `raise_for_status`. -/
theorem C6_counterexample :
    premiumize_magnet_create ⟨500, none⟩ = .error .httpError ∧
    torbox_magnet_create ⟨503, false, none⟩ = .error .httpError ∧
    (∀ urls : List Char,
      premiumize_magnet_create ⟨500, none⟩ ≠ .ok urls) := by
  refine ⟨by decide, by decide, ?_⟩
  intro urls h
  have h2 : premiumize_magnet_create ⟨500, none⟩ = .error .httpError := by decide
  rw [h2] at h
  cases h

/-- C6 amended: failures the adapter detects at the API level yield an
empty result list (Torbox `success = false` returns `[]`), but
transport-level HTTP errors during job creation in the Premiumize and
Torbox adapters raise out of the resolution call instead of returning
`[]`. -/
theorem C6_amended_api_failures_empty_http_failures_raise :
    (∀ resp : TBCreateResp,
      ¬(400 ≤ resp.status_code ∧ resp.status_code ≤ 599) →
      resp.success = false →
      torbox_magnet_create resp = .ok (.inl [])) ∧
    (∀ resp : PMCreateResp, 400 ≤ resp.status_code → resp.status_code ≤ 599 →
      premiumize_magnet_create resp = .error .httpError) ∧
    (∀ resp : TBCreateResp, 400 ≤ resp.status_code → resp.status_code ≤ 599 →
      torbox_magnet_create resp = .error .httpError) := by
  refine ⟨?_, ?_, ?_⟩
  · intro resp hok hs
    unfold torbox_magnet_create raise_for_status
    rw [if_neg hok]
    simp [hs]

  · intro resp h1 h2
    unfold premiumize_magnet_create raise_for_status
    rw [if_pos ⟨h1, h2⟩]
  · intro resp h1 h2
    unfold torbox_magnet_create raise_for_status
    rw [if_pos ⟨h1, h2⟩]

/-- Witness for C6's amended statement at concrete responses. -/
theorem C6_witness :
    torbox_magnet_create ⟨200, false, none⟩ = .ok (.inl []) ∧
    premiumize_magnet_create ⟨404, some [('x')]⟩ = .error .httpError := by
  constructor
  · exact C6_amended_api_failures_empty_http_failures_raise.1 ⟨200, false, none⟩
      (by decide) (by decide)
  · exact C6_amended_api_failures_empty_http_failures_raise.2.1
      ⟨404, some [('x')]⟩ (by decide) (by decide)

/-! ## Cache probes (OneDL.py lines 1804–1886, 1889–1977, 2128–2203)

Each probe is embedded as a function of an environment holding the
remote responses, instrumented with a trace of the observable remote
interactions the claim is about: whether the probe created a remote job
(the code observed the created job, i.e. reached the assignment of the
job id) and whether it issued the delete call before returning.  The
delete call itself is wrapped in `try/except: pass` in every probe, so
only "attempted" is observable. -/

/-- Result and remote-interaction trace of one cache probe. -/
structure ProbeTrace where
  result : String × Option Bool
  createdJob : Bool
  deleteAttempted : Bool
deriving DecidableEq

/-- The fields `check_real_debrid_cache` reads off the `addMagnet`
response: HTTP status, whether the body's `error` is
`"hoster_unsupported"`, and the body's `id` (`none` models a missing key,
whose subscript raises `KeyError`). -/
structure RDAddResp where
  status_code : Int
  error_hoster_unsupported : Bool
  id : Option Int

/-- One file entry of a `torrents/info` response. -/
structure RDFileEntry where
  id : Int
  bytes : Int

/-- The fields of a `torrents/info` response the probe reads. -/
structure RDInfoStat where
  status : String
  files : List RDFileEntry

/-- Remote responses consumed by the Real-Debrid magnet probe, in call
order: add magnet, first info, select-files post, second info.  An
`.error` field models the request (or its JSON decoding) raising. -/
structure RDProbeEnv where
  addMagnet : Except PyErr RDAddResp
  info1 : Except PyErr RDInfoStat
  selectFiles : Except PyErr Unit
  info2 : Except PyErr RDInfoStat

/-- The magnet branch of `check_real_debrid_cache` (lines 1812–1854).
The body is a `try/except Exception/finally`: any exception yields
`("not_supported", None)`, and the `finally` issues the delete call
whenever `torrent_id` was set — on success and error paths alike.
Selecting the largest file indexes `sorted(files, ...)[0]`, which raises
`IndexError` on an empty file list (caught by the `except`). -/
def check_real_debrid_cache_magnet (env : RDProbeEnv) : ProbeTrace :=
  let finish := fun (tid : Option Int) (res : String × Option Bool) =>
    ProbeTrace.mk res tid.isSome tid.isSome
  let fail := fun (tid : Option Int) =>
    ProbeTrace.mk (("not_supported"), none) tid.isSome tid.isSome
  match env.addMagnet with
  | .error _ => fail none
  | .ok add =>
    if add.status_code ≠ 201 then
      if add.error_hoster_unsupported then finish none (("not_supported"), none)
      else finish none (("supported"), some false)
    else
      match add.id with
      | none => fail none
      | some tid =>
        match env.info1 with
        | .error _ => fail (some tid)
        | .ok info =>
          if info.status = "waiting_files_selection" then
            if info.files.isEmpty then fail (some tid)
            else
              match env.selectFiles with
              | .error _ => fail (some tid)
              | .ok _ =>
                match env.info2 with
                | .error _ => fail (some tid)
                | .ok info2 =>
                  finish (some tid) (("supported"), some (info2.status = "downloaded"))
          else
            finish (some tid) (("supported"), some (info.status = "downloaded"))

/-- The fields `check_alldebrid_cache` reads off the `magnet/upload`
response: whether the envelope `status` is `"success"` and the `id`
fields of the returned `magnets` entries. -/
structure ADUploadResp where
  status_success : Bool
  magnets : List (Option Int)

/-- Remote responses consumed by the AllDebrid magnet probe: upload,
then the `statusCode` read off the `magnet/status` response.  An
`.error` models the request raising (caught only by the probe's
outermost `except Exception`). -/
structure ADProbeEnv where
  upload : Except PyErr ADUploadResp
  statusReq : Except PyErr (Option Int)

/-- The magnet branch of `check_alldebrid_cache` (lines 1894–1946).  The
whole probe sits in one `try/except Exception` returning
`("unknown", None)`; the delete call (step 3) runs only after the status
request succeeded, so an exception between upload and cleanup skips the
delete.  `createdJob` records that the upload reported a created
magnet entry. -/
def check_alldebrid_cache_magnet (env : ADProbeEnv) : ProbeTrace :=
  match env.upload with
  | .error _ => ⟨(("unknown"), none), false, false⟩
  | .ok up =>
    if !up.status_success then ⟨(("not_supported"), none), false, false⟩
    else
      match up.magnets with
      | [] => ⟨(("unknown"), none), false, false⟩
      | _ :: _ =>
        match env.statusReq with
        | .error _ => ⟨(("unknown"), none), true, false⟩
        | .ok code =>
          let res :=
            if code = some 4 then (("supported"), some true)
            else if code = some 0 ∨ code = some 1 ∨ code = some 2 ∨
                code = some 3 then (("supported"), some false)
            else (("not_supported"), none)
          ⟨res, true, true⟩

/-- The fields `check_debrid_link_cache` reads off the `seedbox/add`
response: the `success` flag, the created torrent's `id` and its
`downloadPercent` (`none` models the key missing from the response). -/
structure DLAddResp where
  success : Bool
  id : Option Int
  downloadPercent : Option Int

/-- The fields of the `seedbox/list` response the probe reads: HTTP
status and `(id, downloadPercent)` of the listed torrents. -/
structure DLListResp where
  status_code : Int
  torrents : List (Int × Int)

/-- Remote responses consumed by the Debrid-Link magnet probe. -/
structure DLProbeEnv where
  add : Except PyErr DLAddResp
  list : Except PyErr DLListResp

/-- The magnet branch of `check_debrid_link_cache` (lines 2136–2183).
The probe sits in one `try/except Exception` returning
`("unknown", None)`; after a successful add, a missing `downloadPercent`
triggers a `seedbox/list` lookup, then the torrent is deleted
(`if torrent_id:`) and `("supported", progress == 100)` returned.  An
exception during the list lookup is caught by the outer `except` and
skips the delete. -/
def check_debrid_link_cache_magnet (env : DLProbeEnv) : ProbeTrace :=
  let finish := fun (tid : Option Int) (p : Int) =>
    ProbeTrace.mk (("supported"), some (p = 100)) true tid.isSome
  match env.add with
  | .error _ => ⟨(("unknown"), none), false, false⟩
  | .ok add =>
    if !add.success then ⟨(("not_supported"), none), false, false⟩
    else
      match add.downloadPercent with
      | some p => finish add.id p
      | none =>
        match add.id with
        | none => finish none 0
        | some tid =>
          match env.list with
          | .error _ => ⟨(("unknown"), none), true, false⟩
          | .ok lst =>
            let p :=
              if lst.status_code = 200 then
                match lst.torrents.find? (fun t => t.1 = tid) with
                | some t => t.2
                | none => 0
              else 0
            finish (some tid) p

/-- The hoster branch of `check_debrid_link_cache` (lines 2186–2199): it
probes by `downloader/add`, which creates a downloader job on the user's
account, and contains no delete call at all — also on the success
path. -/
def check_debrid_link_cache_hoster (add : Except PyErr Bool) : ProbeTrace :=
  match add with
  | .error _ => ⟨(("unknown"), none), false, false⟩
  | .ok true => ⟨(("supported"), some true), true, false⟩
  | .ok false => ⟨(("not_supported"), none), false, false⟩

/-- C4 counterexample: probes do not attempt deletion on every path.
(1) The AllDebrid magnet probe with a successful upload whose status
request raises returns `("unknown", None)` with the probe job created
but no delete attempted (an error path without cleanup).
(2) The Debrid-Link hoster probe returns `("supported", True)` on its
*success* path with a downloader job created and no delete call in the
code at all. -/
theorem C4_counterexample :
    check_alldebrid_cache_magnet
        ⟨.ok ⟨true, [some 7]⟩, .error .httpError⟩ =
      ⟨(("unknown"), none), true, false⟩ ∧
    check_debrid_link_cache_hoster (.ok true) =
      ⟨(("supported"), some true), true, false⟩ ∧
    check_debrid_link_cache_magnet
        ⟨.ok ⟨true, some 9, none⟩, .error .httpError⟩ =
      ⟨(("unknown"), none), true, false⟩ := by
  refine ⟨rfl, rfl, rfl⟩

/-- C4 amended: only the Real-Debrid magnet probe guarantees a deletion
attempt whenever it created (and identified) a probe job, via its
`try/finally` — on success and error paths alike.  The AllDebrid and
Debrid-Link magnet probes attempt deletion only when no exception occurs
between job creation and the cleanup step, and the Debrid-Link hoster
probe never attempts deletion. -/
theorem C4_amended_cleanup_guarantees :
    (∀ env : RDProbeEnv,
      (check_real_debrid_cache_magnet env).createdJob = true →
      (check_real_debrid_cache_magnet env).deleteAttempted = true) ∧
    (∀ env : ADProbeEnv, (∀ e : PyErr, env.statusReq ≠ .error e) →
      (check_alldebrid_cache_magnet env).createdJob = true →
      (check_alldebrid_cache_magnet env).deleteAttempted = true) ∧
    (∀ add : Except PyErr Bool,
      (check_debrid_link_cache_hoster add).deleteAttempted = false) := by
  refine ⟨?_, ?_, ?_⟩
  · intro env
    unfold check_real_debrid_cache_magnet
    cases env.addMagnet with
    | error e => intro h; exact h
    | ok add =>
      dsimp only
      by_cases h201 : add.status_code ≠ 201
      · rw [if_pos h201]
        by_cases hh : add.error_hoster_unsupported
        · rw [if_pos hh]; intro h; exact h
        · rw [if_neg hh]; intro h; exact h
      · rw [if_neg h201]
        cases add.id with
        | none => intro h; exact h
        | some tid =>
          cases env.info1 with
          | error e => intro h; exact h
          | ok info =>
            dsimp only
            by_cases hw : info.status = "waiting_files_selection"
            · rw [if_pos hw]
              by_cases hf : info.files.isEmpty
              · rw [if_pos hf]; intro h; exact h
              · rw [if_neg hf]
                cases env.selectFiles with
                | error e => intro h; exact h
                | ok u =>
                  cases env.info2 with
                  | error e => intro h; exact h
                  | ok info2 => intro h; exact h
            · rw [if_neg hw]
              intro h
              exact h
  · intro env hok
    unfold check_alldebrid_cache_magnet
    cases hs : env.statusReq with
    | error e => exact absurd hs (hok e)
    | ok code =>
      cases env.upload with
      | error e => intro h; exact h
      | ok up =>
        dsimp only
        by_cases hsucc : !up.status_success
        · rw [if_pos hsucc]; intro h; exact h
        · rw [if_neg hsucc]
          cases up.magnets with
          | nil => intro h; exact h
          | cons m ms => intro _; rfl
  · intro add
    cases add with
    | error e => rfl
    | ok b => cases b <;> rfl

/-- Witness for C4's amended statement: the Real-Debrid probe deletes
the job it created even when the second info request raises, and the
AllDebrid probe deletes when its status request succeeds. -/
theorem C4_witness :
    (check_real_debrid_cache_magnet
        ⟨.ok ⟨201, false, some 5⟩,
         .ok ⟨("waiting_files_selection"), [⟨1, 100⟩]⟩,
         .ok (),
         .error .httpError⟩).deleteAttempted = true ∧
    (check_alldebrid_cache_magnet
        ⟨.ok ⟨true, [some 7]⟩, .ok (some 4)⟩).deleteAttempted = true := by
  constructor
  · exact C4_amended_cleanup_guarantees.1
      ⟨.ok ⟨201, false, some 5⟩,
       .ok ⟨("waiting_files_selection"), [⟨1, 100⟩]⟩,
       .ok (),
       .error .httpError⟩ (by decide)
  · exact C4_amended_cleanup_guarantees.2.1
      ⟨.ok ⟨true, [some 7]⟩, .ok (some 4)⟩
      (fun e h => by cases h) (by decide)

/-! ## Bencode (the `bencodepy` library as used by `torrent_to_magnet`,
OneDL.py lines 348–361)

Byte strings are `List Nat`.  A decoded dictionary is an association
list in source order (bencodepy decodes to an `OrderedDict` and
re-encodes it in that order, so decode-then-encode preserves the
original layout); nothing in the probe requires sorted keys. -/

/-- A bencoded value. -/
inductive Bencode where
  | int (n : Int)
  | bytes (bs : List Nat)
  | list (xs : List Bencode)
  | dict (kvs : List (List Nat × Bencode))

/-- Decimal digits (as ASCII byte values, most significant first) of a
natural number; fuelled to stay structurally recursive. -/
def natDigitsGo : Nat → Nat → List Nat
  | 0, _ => []
  | fuel + 1, n => if n < 10 then [48 + n] else natDigitsGo fuel (n / 10) ++ [48 + n % 10]

/-- Decimal ASCII rendering of a natural number. -/
def natDigits (n : Nat) : List Nat :=
  natDigitsGo (n + 1) n

/-- Decimal ASCII rendering of an integer (with a leading `-`). -/
def intBytes : Int → List Nat
  | .ofNat m => natDigits m
  | .negSucc m => 45 :: natDigits (m + 1)

mutual

/-- `bencodepy.encode`: `i...e` integers, `len:data` byte strings,
`l...e` lists, `d...e` dictionaries in stored key order. -/
def bencEncode : Bencode → List Nat
  | .int n => 105 :: (intBytes n ++ [101])
  | .bytes bs => natDigits bs.length ++ (58 :: bs)
  | .list xs => 108 :: (bencEncodeList xs ++ [101])
  | .dict kvs => 100 :: (bencEncodeDict kvs ++ [101])

/-- Encode the elements of a bencoded list. -/
def bencEncodeList : List Bencode → List Nat
  | [] => []
  | x :: xs => bencEncode x ++ bencEncodeList xs

/-- Encode the key/value pairs of a bencoded dictionary. -/
def bencEncodeDict : List (List Nat × Bencode) → List Nat
  | [] => []
  | (k, v) :: kvs =>
    (natDigits k.length ++ (58 :: k)) ++ bencEncode v ++ bencEncodeDict kvs

end

/-- An ASCII decimal-digit byte. -/
def isDigitByte (b : Nat) : Bool :=
  48 ≤ b && b ≤ 57

/-- Value of a list of decimal-digit bytes. -/
def bytesToNat (ds : List Nat) : Nat :=
  ds.foldl (fun a d => a * 10 + (d - 48)) 0

/-- Parse the payload of an `i...e` integer (after the `i`). -/
def bdecInt (bs : List Nat) : Option (Int × List Nat) :=
  match bs with
  | 45 :: rest =>
    match rest.takeWhile isDigitByte, rest.dropWhile isDigitByte with
    | [], _ => none
    | ds, 101 :: rest2 => some (-(bytesToNat ds : Int), rest2)
    | _, _ => none
  | _ =>
    match bs.takeWhile isDigitByte, bs.dropWhile isDigitByte with
    | [], _ => none
    | ds, 101 :: rest2 => some ((bytesToNat ds : Int), rest2)
    | _, _ => none

/-- Parse a `len:data` byte string. -/
def bdecBytes (bs : List Nat) : Option (List Nat × List Nat) :=
  match bs.takeWhile isDigitByte, bs.dropWhile isDigitByte with
  | [], _ => none
  | ds, 58 :: rest2 =>
    let n := bytesToNat ds
    if rest2.length < n then none else some (rest2.take n, rest2.drop n)
  | _, _ => none

mutual

/-- Parse one bencoded value, returning it and the unconsumed rest. -/
def bdecodeVal : Nat → List Nat → Option (Bencode × List Nat)
  | 0, _ => none
  | fuel + 1, bs =>
    match bs with
    | [] => none
    | 105 :: rest =>
      match bdecInt rest with
      | some (n, rest2) => some (.int n, rest2)
      | none => none
    | 108 :: rest =>
      match bdecodeItems fuel rest with
      | some (xs, rest2) => some (.list xs, rest2)
      | none => none
    | 100 :: rest =>
      match bdecodePairs fuel rest with
      | some (kvs, rest2) => some (.dict kvs, rest2)
      | none => none
    | bs2 =>
      match bdecBytes bs2 with
      | some (b, rest2) => some (.bytes b, rest2)
      | none => none

/-- Parse list elements until the closing `e`. -/
def bdecodeItems : Nat → List Nat → Option (List Bencode × List Nat)
  | 0, _ => none
  | fuel + 1, bs =>
    match bs with
    | 101 :: rest => some ([], rest)
    | _ =>
      match bdecodeVal fuel bs with
      | some (v, rest) =>
        match bdecodeItems fuel rest with
        | some (xs, rest2) => some (v :: xs, rest2)
        | none => none
      | none => none

/-- Parse dictionary pairs until the closing `e`. -/
def bdecodePairs : Nat → List Nat → Option (List (List Nat × Bencode) × List Nat)
  | 0, _ => none
  | fuel + 1, bs =>
    match bs with
    | 101 :: rest => some ([], rest)
    | _ =>
      match bdecBytes bs with
      | some (k, rest) =>
        match bdecodeVal fuel rest with
        | some (v, rest2) =>
          match bdecodePairs fuel rest2 with
          | some (kvs, rest3) => some ((k, v) :: kvs, rest3)
          | none => none
        | none => none
      | none => none

end

/-- `bencodepy.decode`: parse one value and require the input to be fully
consumed; `none` models a raised decoding error. -/
def bencodepy_decode (bs : List Nat) : Option Bencode :=
  match bdecodeVal (2 * bs.length + 2) bs with
  | some (v, []) => some v
  | _ => none

/-- Python `dict` lookup on the decoded association list: on duplicate
keys the last occurrence wins, as in a Python dict built by insertion. -/
def lookupDict : List (List Nat × Bencode) → List Nat → Option Bencode
  | [], _ => none
  | (k, v) :: rest, key =>
    match lookupDict rest key with
    | some v2 => some v2
    | none => if k = key then some v else none

/-- `"info"` / `"name"` as byte strings. -/
def asciiBytes (s : String) : List Nat :=
  s.data.map Char.toNat

example : bencodepy_decode (asciiBytes ("i42e")) = some (.int 42) := by rfl
example : bencodepy_decode (asciiBytes ("4:spam")) = some (.bytes (asciiBytes ("spam"))) := by rfl
example :
    bencodepy_decode (asciiBytes ("d4:spaml4:eggsi-3eee")) =
      some (.dict [(asciiBytes ("spam"),
        .list [.bytes (asciiBytes ("eggs")), .int (-3)])]) := by rfl
example :
    bencEncode (.dict [(asciiBytes ("spam"),
        .list [.bytes (asciiBytes ("eggs")), .int (-3)])]) =
      asciiBytes ("d4:spaml4:eggsi-3eee") := by rfl
example : bencodepy_decode (asciiBytes ("i42e ")) = none := by rfl

/-! ## SHA-1 (`hashlib.sha1(...).hexdigest()` as used by
`torrent_to_magnet`)

A byte-level implementation of FIPS 180-1 SHA-1 over `List Nat`, with
32-bit words as `Nat` reduced modulo `2^32`. -/

/-- Truncate to a 32-bit word. -/
def w32 (n : Nat) : Nat :=
  n % 4294967296

/-- Rotate a 32-bit word left by `k` (for `n < 2^32`, `0 < k < 32`):
the high `k` bits move to the bottom, expressed arithmetically. -/
def rotl (k n : Nat) : Nat :=
  (n % 2 ^ (32 - k)) * 2 ^ k + n / 2 ^ (32 - k)

/-- Byte `k` (little-endian index) of a natural number. -/
def byteAt (n k : Nat) : Nat :=
  n / 2 ^ (8 * k) % 256

/-- Big-endian 8-byte encoding of the 64-bit message length. -/
def be64 (n : Nat) : List Nat :=
  [byteAt n 7, byteAt n 6, byteAt n 5, byteAt n 4,
   byteAt n 3, byteAt n 2, byteAt n 1, byteAt n 0]

/-- SHA-1 padding: append `0x80`, zero bytes to 56 mod 64, and the
big-endian bit length. -/
def sha1Pad (msg : List Nat) : List Nat :=
  let len := msg.length
  msg ++ (128 :: List.replicate ((120 - (len + 1) % 64) % 64) 0) ++ be64 (8 * len)

/-- Split into 64-byte chunks (fuelled). -/
def chunksGo : Nat → List Nat → List (List Nat)
  | 0, _ => []
  | _ + 1, [] => []
  | fuel + 1, bs => bs.take 64 :: chunksGo fuel (bs.drop 64)

/-- Split into 64-byte chunks. -/
def chunks64 (bs : List Nat) : List (List Nat) :=
  chunksGo (bs.length + 1) bs

/-- Big-endian 32-bit words of a chunk. -/
def wordsOf : List Nat → List Nat
  | b0 :: b1 :: b2 :: b3 :: rest =>
    (((b0 * 256 + b1) * 256 + b2) * 256 + b3) :: wordsOf rest
  | _ => []

/-- Message-schedule extension: append `w[i] = rotl1 (w[i-3] ^ w[i-8] ^
w[i-14] ^ w[i-16])` the given number of times. -/
def sha1Extend (w : List Nat) : Nat → List Nat
  | 0 => w
  | k + 1 =>
    let i := w.length
    let wi := rotl 1 (Nat.xor (Nat.xor (w.getD (i - 3) 0) (w.getD (i - 8) 0))
      (Nat.xor (w.getD (i - 14) 0) (w.getD (i - 16) 0)))
    sha1Extend (w ++ [wi]) k

/-- The round function `f` of round `i`. -/
def sha1F (i b c d : Nat) : Nat :=
  if i < 20 then Nat.lor (Nat.land b c) (Nat.land (Nat.xor b 4294967295) d)
  else if i < 40 then Nat.xor (Nat.xor b c) d
  else if i < 60 then Nat.lor (Nat.lor (Nat.land b c) (Nat.land b d)) (Nat.land c d)
  else Nat.xor (Nat.xor b c) d

/-- The round constant `k` of round `i`. -/
def sha1K (i : Nat) : Nat :=
  if i < 20 then 1518500249
  else if i < 40 then 1859775393
  else if i < 60 then 2400959708
  else 3395469782

/-- The 80 compression rounds over the extended schedule. -/
def sha1Rounds : List (Nat × Nat) → Nat × Nat × Nat × Nat × Nat →
    Nat × Nat × Nat × Nat × Nat
  | [], st => st
  | (i, wi) :: rest, (a, b, c, d, e) =>
    let temp := w32 (rotl 5 a + sha1F i b c d + e + sha1K i + wi)
    sha1Rounds rest (temp, a, rotl 30 b, c, d)

/-- Process one 64-byte chunk. -/
def sha1Chunk (h : Nat × Nat × Nat × Nat × Nat) (chunk : List Nat) :
    Nat × Nat × Nat × Nat × Nat :=
  let w := sha1Extend (wordsOf chunk) 64
  let (h0, h1, h2, h3, h4) := h
  let (a, b, c, d, e) := sha1Rounds ((List.range 80).zip w) (h0, h1, h2, h3, h4)
  (w32 (h0 + a), w32 (h1 + b), w32 (h2 + c), w32 (h3 + d), w32 (h4 + e))

/-- The five 32-bit state words of the SHA-1 digest of a byte string. -/
def sha1Words (msg : List Nat) : Nat × Nat × Nat × Nat × Nat :=
  (chunks64 (sha1Pad msg)).foldl sha1Chunk
    (1732584193, 4023233417, 2562383102, 271733878, 3285377520)

/-- Lower-case hex digit. -/
def hexDigitChar (n : Nat) : Char :=
  if n < 10 then Char.ofNat (48 + n) else Char.ofNat (87 + n)

/-- Fixed-width 8-hex-digit rendering of a 32-bit word. -/
def toHex8 (n : Nat) : List Char :=
  [hexDigitChar (n / 2 ^ 28 % 16), hexDigitChar (n / 2 ^ 24 % 16),
   hexDigitChar (n / 2 ^ 20 % 16), hexDigitChar (n / 2 ^ 16 % 16),
   hexDigitChar (n / 2 ^ 12 % 16), hexDigitChar (n / 2 ^ 8 % 16),
   hexDigitChar (n / 2 ^ 4 % 16), hexDigitChar (n % 16)]

/-- `hashlib.sha1(msg).hexdigest()`. -/
def sha1HexDigest (msg : List Nat) : List Char :=
  let (h0, h1, h2, h3, h4) := sha1Words msg
  toHex8 h0 ++ toHex8 h1 ++ toHex8 h2 ++ toHex8 h3 ++ toHex8 h4

set_option maxRecDepth 100000 in
example : sha1HexDigest (asciiBytes ("abc")) =
    ("a9993e364706816aba3e25717850c26c9cd0d89d").data := by rfl

set_option maxRecDepth 100000 in
example : sha1HexDigest [] =
    ("da39a3ee5e6b4b0d3255bfef95601890afd80709").data := by rfl

/-! ## UTF-8, percent-quoting and `torrent_to_magnet`
(OneDL.py lines 348–361) -/

/-- A UTF-8 continuation byte. -/
def isContByte (b : Nat) : Bool :=
  128 ≤ b && b ≤ 191

/-- Allowed second byte after a three-byte lead (rejects overlong forms
and surrogates, as CPython's decoder does). -/
def utf8Cont2Ok (b1 b2 : Nat) : Bool :=
  if b1 = 224 then 160 ≤ b2 && b2 ≤ 191
  else if b1 = 237 then 128 ≤ b2 && b2 ≤ 159
  else isContByte b2

/-- Allowed second byte after a four-byte lead. -/
def utf8Cont3Ok (b1 b2 : Nat) : Bool :=
  if b1 = 240 then 144 ≤ b2 && b2 ≤ 191
  else if b1 = 244 then 128 ≤ b2 && b2 ≤ 143
  else isContByte b2

/-- `bytes.decode("utf-8", errors="ignore")`: decode by the standard
UTF-8 table; on an invalid or truncated sequence the offending lead byte
is skipped and decoding resumes (modelling the `ignore` error
handler). -/
def utf8DecodeGo : Nat → List Nat → List Char
  | 0, _ => []
  | fuel + 1, bs =>
    match bs with
    | [] => []
    | b1 :: rest1 =>
      if b1 < 128 then Char.ofNat b1 :: utf8DecodeGo fuel rest1
      else if 194 ≤ b1 && b1 ≤ 223 then
        match rest1 with
        | b2 :: rest2 =>
          if isContByte b2 then
            Char.ofNat ((b1 - 192) * 64 + (b2 - 128)) :: utf8DecodeGo fuel rest2
          else utf8DecodeGo fuel rest1
        | [] => []
      else if 224 ≤ b1 && b1 ≤ 239 then
        match rest1 with
        | b2 :: b3 :: rest3 =>
          if utf8Cont2Ok b1 b2 && isContByte b3 then
            Char.ofNat ((b1 - 224) * 4096 + (b2 - 128) * 64 + (b3 - 128)) ::
              utf8DecodeGo fuel rest3
          else utf8DecodeGo fuel rest1
        | _ => []
      else if 240 ≤ b1 && b1 ≤ 244 then
        match rest1 with
        | b2 :: b3 :: b4 :: rest4 =>
          if utf8Cont3Ok b1 b2 && isContByte b3 && isContByte b4 then
            Char.ofNat ((b1 - 240) * 262144 + (b2 - 128) * 4096 +
              (b3 - 128) * 64 + (b4 - 128)) :: utf8DecodeGo fuel rest4
          else utf8DecodeGo fuel rest1
        | _ => []
      else utf8DecodeGo fuel rest1

/-- `bytes.decode("utf-8", errors="ignore")` (fuelled by the byte count;
each step consumes at least one byte). -/
def utf8DecodeIgnore (bs : List Nat) : List Char :=
  utf8DecodeGo bs.length bs

/-- Upper-case hex digit (for percent-escapes). -/
def hexUpperChar (n : Nat) : Char :=
  if n < 10 then Char.ofNat (48 + n) else Char.ofNat (55 + n)

/-- Characters `urllib.parse.quote` leaves unescaped with the default
`safe="/"`: unreserved characters plus the slash. -/
def quoteSafeChar (c : Char) : Bool :=
  ('A' ≤ c && c ≤ 'Z') || ('a' ≤ c && c ≤ 'z') || ('0' ≤ c && c ≤ '9') ||
  c = '_' || c = '.' || c = '-' || c = '~' || c = '/'

/-- UTF-8 encoding of one character. -/
def utf8EncodeChar (c : Char) : List Nat :=
  if c.toNat < 128 then [c.toNat]
  else if c.toNat < 2048 then [192 + c.toNat / 64, 128 + c.toNat % 64]
  else if c.toNat < 65536 then
    [224 + c.toNat / 4096, 128 + c.toNat / 64 % 64, 128 + c.toNat % 64]
  else
    [240 + c.toNat / 262144, 128 + c.toNat / 4096 % 64,
     128 + c.toNat / 64 % 64, 128 + c.toNat % 64]

/-- `urllib.parse.quote(name)`: keep safe characters, percent-encode the
UTF-8 bytes of everything else with upper-case hex. -/
def pyQuote (s : List Char) : List Char :=
  s.flatMap (fun c =>
    if quoteSafeChar c then [c]
    else (utf8EncodeChar c).flatMap (fun b =>
      ['%', hexUpperChar (b / 16), hexUpperChar (b % 16)]))

/-- The magnet string assembled by `torrent_to_magnet`: the fixed header,
the info hash, and — when the display name is non-empty (`if name:`) —
`&dn=` followed by the quoted name. -/
def buildMagnet (info_hash : List Char) (name : List Char) : List Char :=
  ("magnet:?xt=urn:btih:").data ++ info_hash ++
    (if name.isEmpty then [] else ("&dn=").data ++ pyQuote name)

/-- The display name `torrent_to_magnet` extracts:
`info.get(b'name', b'').decode('utf-8', errors='ignore')`.  `none`
models a raised exception (`info` not a dict so `.get` raises, or the
`name` value not bytes so `.decode` raises). -/
def info_display_name (info : Bencode) : Option (List Char) :=
  match info with
  | .dict ikvs =>
    match lookupDict ikvs (asciiBytes ("name")) with
    | some (.bytes nb) => some (utf8DecodeIgnore nb)
    | none => some []
    | some _ => none
  | _ => none

/-- Hash the re-encoded `info` value and assemble the magnet string. -/
def torrent_magnet_of_info (info : Bencode) : Option (List Char) :=
  match info_display_name info with
  | some name => some (buildMagnet (sha1HexDigest (bencEncode info)) name)
  | none => none

/-- `torrent_to_magnet` (lines 348–361) on the raw bytes of the torrent
file: decode, SHA-1 the re-encoded `info` dictionary, and build the
magnet link.  `none` models a raised exception: a bencode decoding
error or a missing `info` key (`KeyError`). -/
def torrent_to_magnet (bytes : List Nat) : Option (List Char) :=
  match bencodepy_decode bytes with
  | some (.dict kvs) =>
    match lookupDict kvs (asciiBytes ("info")) with
    | some info => torrent_magnet_of_info info
    | none => none
  | _ => none

/-! ### Lemmas for C10 -/

theorem dropWhile_eq_self_of_all {p : Char → Bool} {s : List Char}
    (h : ∀ c ∈ s, p c = false) : s.dropWhile p = s := by
  cases s with
  | nil => rfl
  | cons a l =>
    rw [List.dropWhile_cons, h a (List.mem_cons_self a l)]
    rfl

theorem pyStrip_eq_self {s : List Char}
    (h : ∀ c ∈ s, pyIsSpaceChar c = false) : pyStrip s = s := by
  unfold pyStrip
  rw [dropWhile_eq_self_of_all h]
  rw [dropWhile_eq_self_of_all (fun c hc => h c (List.mem_reverse.mp hc))]
  exact List.reverse_reverse s

/-- A lower-case hexadecimal digit. -/
def isHexDigitChar (c : Char) : Bool :=
  ('0' ≤ c && c ≤ '9') || ('a' ≤ c && c ≤ 'f')

theorem hexDigitChar_not_space :
    ∀ k, k < 16 → pyIsSpaceChar (hexDigitChar k) = false := by decide

theorem hexDigitChar_isHex :
    ∀ k, k < 16 → isHexDigitChar (hexDigitChar k) = true := by decide

theorem hexUpperChar_not_space :
    ∀ k, k < 16 → pyIsSpaceChar (hexUpperChar k) = false := by decide

theorem mem_toHex8 {n : Nat} {c : Char} (h : c ∈ toHex8 n) :
    ∃ k, k < 16 ∧ c = hexDigitChar k := by
  unfold toHex8 at h
  simp only [List.mem_cons, List.not_mem_nil, or_false] at h
  rcases h with rfl | rfl | rfl | rfl | rfl | rfl | rfl | rfl <;>
    exact ⟨_ % 16, Nat.mod_lt _ (by omega), rfl⟩

theorem sha1HexDigest_length (msg : List Nat) :
    (sha1HexDigest msg).length = 40 := by
  unfold sha1HexDigest
  rcases sha1Words msg with ⟨h0, h1, h2, h3, h4⟩
  simp [toHex8]

theorem mem_sha1HexDigest {msg : List Nat} {c : Char}
    (h : c ∈ sha1HexDigest msg) : ∃ k, k < 16 ∧ c = hexDigitChar k := by
  unfold sha1HexDigest at h
  rcases sha1Words msg with ⟨h0, h1, h2, h3, h4⟩
  simp only [List.mem_append] at h
  rcases h with (((h | h) | h) | h) | h <;> exact mem_toHex8 h

theorem sha1HexDigest_no_space {msg : List Nat} :
    ∀ c ∈ sha1HexDigest msg, pyIsSpaceChar c = false := by
  intro c hc
  obtain ⟨k, hk, rfl⟩ := mem_sha1HexDigest hc
  exact hexDigitChar_not_space k hk

theorem sha1HexDigest_all_hex {msg : List Nat} :
    ∀ c ∈ sha1HexDigest msg, isHexDigitChar c = true := by
  intro c hc
  obtain ⟨k, hk, rfl⟩ := mem_sha1HexDigest hc
  exact hexDigitChar_isHex k hk

theorem quoteSafeChar_not_space {c : Char} (h : quoteSafeChar c = true) :
    pyIsSpaceChar c = false := by
  cases hsp : pyIsSpaceChar c
  · rfl
  · exfalso
    unfold pyIsSpaceChar at hsp
    simp only [Bool.or_eq_true, decide_eq_true_eq] at hsp
    rcases hsp with ((((rfl | rfl) | rfl) | rfl) | rfl) | rfl <;>
      exact absurd h (by decide)

theorem char_toNat_lt (c : Char) : c.toNat < 1114112 := by
  rcases c.valid with h | ⟨h1, h2⟩
  · have h3 : c.val.toNat < 55296 := h
    show c.val.toNat < 1114112
    omega
  · have h3 : c.val.toNat < 1114112 := h2
    exact h3

theorem utf8EncodeChar_lt_256 (c : Char) : ∀ b ∈ utf8EncodeChar c, b < 256 := by
  have hc := char_toNat_lt c
  intro b hb
  unfold utf8EncodeChar at hb
  by_cases h1 : c.toNat < 128
  · rw [if_pos h1] at hb
    simp only [List.mem_singleton] at hb
    omega
  · rw [if_neg h1] at hb
    by_cases h2 : c.toNat < 2048
    · rw [if_pos h2] at hb
      simp only [List.mem_cons, List.not_mem_nil, or_false] at hb
      rcases hb with rfl | rfl <;> omega
    · rw [if_neg h2] at hb
      by_cases h3 : c.toNat < 65536
      · rw [if_pos h3] at hb
        simp only [List.mem_cons, List.not_mem_nil, or_false] at hb
        rcases hb with rfl | rfl | rfl <;> omega
      · rw [if_neg h3] at hb
        simp only [List.mem_cons, List.not_mem_nil, or_false] at hb
        rcases hb with rfl | rfl | rfl | rfl <;> omega

theorem pyQuote_not_space (s : List Char) :
    ∀ c ∈ pyQuote s, pyIsSpaceChar c = false := by
  induction s with
  | nil => intro c hc; cases hc
  | cons a l ih =>
    intro c hc
    unfold pyQuote at hc
    rw [List.flatMap_cons] at hc
    rcases List.mem_append.mp hc with hc | hc
    · by_cases hsafe : quoteSafeChar a
      · rw [if_pos hsafe] at hc
        simp only [List.mem_singleton] at hc
        subst hc
        exact quoteSafeChar_not_space hsafe
      · rw [if_neg hsafe] at hc
        rcases List.mem_flatMap.mp hc with ⟨b, hbmem, hcb⟩
        have hb256 : b < 256 := utf8EncodeChar_lt_256 a b hbmem
        simp only [List.mem_cons, List.not_mem_nil, or_false] at hcb
        rcases hcb with rfl | rfl | rfl
        · decide
        · exact hexUpperChar_not_space (b / 16) (by omega)
        · exact hexUpperChar_not_space (b % 16) (by omega)
    · exact ih c hc

theorem magnetHead_no_space :
    ∀ c ∈ ("magnet:?xt=urn:btih:").data, pyIsSpaceChar c = false := by decide

theorem dnMarker_no_space :
    ∀ c ∈ ("&dn=").data, pyIsSpaceChar c = false := by decide

theorem buildMagnet_no_space (info_hash name : List Char)
    (hh : ∀ c ∈ info_hash, pyIsSpaceChar c = false) :
    ∀ c ∈ buildMagnet info_hash name, pyIsSpaceChar c = false := by
  intro c hc
  unfold buildMagnet at hc
  by_cases he : name.isEmpty
  · rw [if_pos he, List.append_nil] at hc
    rcases List.mem_append.mp hc with hc | hc
    · exact magnetHead_no_space c hc
    · exact hh c hc
  · rw [if_neg he] at hc
    rcases List.mem_append.mp hc with hc | hc
    · rcases List.mem_append.mp hc with hc | hc
      · exact magnetHead_no_space c hc
      · exact hh c hc
    · rcases List.mem_append.mp hc with hc | hc
      · exact dnMarker_no_space c hc
      · exact pyQuote_not_space name c hc

theorem isPrefixOf_append (l t : List Char) : l.isPrefixOf (l ++ t) = true := by
  induction l with
  | nil => cases t <;> rfl
  | cons a l ih => simp [List.isPrefixOf, ih]

theorem is_magnet_buildMagnet (info_hash name : List Char)
    (hh : ∀ c ∈ info_hash, pyIsSpaceChar c = false) :
    is_magnet (buildMagnet info_hash name) = true := by
  unfold is_magnet
  rw [pyStrip_eq_self (buildMagnet_no_space info_hash name hh)]
  unfold buildMagnet
  have hsplit : ("magnet:?xt=urn:btih:").data =
      ("magnet:").data ++ ("?xt=urn:btih:").data := rfl
  rw [hsplit, List.append_assoc, List.append_assoc]
  exact isPrefixOf_append _ _

/-- C10: for every torrent byte string that decodes as a bencoded
dictionary with an `info` entry, a successful conversion produces
`magnet:?xt=urn:btih:` followed by the 40-hex-digit SHA-1 of the
re-encoded `info` dictionary; the converted string is classified as a
magnet (it takes the magnet branch of every resolver). -/
theorem C10_torrent_to_magnet_shape :
    ∀ (bytes : List Nat) (kvs : List (List Nat × Bencode)) (info : Bencode)
      (m : List Char),
      bencodepy_decode bytes = some (.dict kvs) →
      lookupDict kvs (asciiBytes ("info")) = some info →
      torrent_to_magnet bytes = some m →
      (∃ rest, m = ("magnet:?xt=urn:btih:").data ++
        sha1HexDigest (bencEncode info) ++ rest) ∧
      (sha1HexDigest (bencEncode info)).length = 40 ∧
      (∀ c ∈ sha1HexDigest (bencEncode info), isHexDigitChar c = true) ∧
      is_magnet m = true ∧
      classify m = .magnet := by
  intro bytes kvs info m hdec hinfo hm
  have hm2 : torrent_to_magnet bytes = torrent_magnet_of_info info := by
    unfold torrent_to_magnet
    rw [hdec]
    show (match lookupDict kvs (asciiBytes ("info")) with
      | some i => torrent_magnet_of_info i
      | none => none) = torrent_magnet_of_info info
    rw [hinfo]
  rw [hm2] at hm
  have hshape : ∃ name, m = buildMagnet (sha1HexDigest (bencEncode info)) name := by
    unfold torrent_magnet_of_info at hm
    cases hn : info_display_name info with
    | none => rw [hn] at hm; cases hm
    | some name =>
      rw [hn] at hm
      have hm4 : some (buildMagnet (sha1HexDigest (bencEncode info)) name) =
          some m := hm
      cases hm4
      exact ⟨name, rfl⟩
  obtain ⟨name, rfl⟩ := hshape
  have hmag : is_magnet (buildMagnet (sha1HexDigest (bencEncode info)) name) = true :=
    is_magnet_buildMagnet _ _ sha1HexDigest_no_space
  refine ⟨⟨_, rfl⟩, sha1HexDigest_length _, sha1HexDigest_all_hex, hmag, ?_⟩
  unfold classify
  rw [hmag]
  rfl

/-- A concrete torrent byte string for the witness: a dictionary whose
`info` entry has a `length` and a `name`. -/
def c10Bytes : List Nat :=
  asciiBytes ("d4:infod6:lengthi3e4:name3:fooee")

/-- The `info` value of `c10Bytes`. -/
def c10Info : Bencode :=
  .dict [(asciiBytes ("length"), .int 3), (asciiBytes ("name"), .bytes (asciiBytes ("foo")))]

/-- The magnet string the conversion produces for `c10Bytes`. -/
def c10Magnet : List Char :=
  buildMagnet (sha1HexDigest (bencEncode c10Info)) (("foo").data)

set_option maxRecDepth 400000 in
/-- Witness for C10 at the concrete torrent `c10Bytes`. -/
theorem C10_witness :
    (∃ rest, c10Magnet = ("magnet:?xt=urn:btih:").data ++
      sha1HexDigest (bencEncode c10Info) ++ rest) ∧
    (sha1HexDigest (bencEncode c10Info)).length = 40 ∧
    (∀ c ∈ sha1HexDigest (bencEncode c10Info), isHexDigitChar c = true) ∧
    is_magnet c10Magnet = true ∧
    classify c10Magnet = .magnet :=
  C10_torrent_to_magnet_shape c10Bytes
    [(asciiBytes ("info"), c10Info)] c10Info c10Magnet
    (by rfl) (by rfl) (by rfl)

end OneDL
